import Mathlib

/-!
# Verification of the St. Paul crime REST server query/mutation logic

Shallow embedding of `src/rest_server.mjs`: the filter builders of the
GET `/codes`, `/neighborhoods` and `/incidents` handlers, the mutation
validators of PUT `/new-incident` and DELETE `/remove-incident`, and the
two JSON output renderings.  The SQLite store is modelled as a list of
typed rows; query execution (WHERE / ORDER BY / LIMIT with positional
`?` parameters) is given an explicit semantics.
-/

namespace RestServer

/-- A value bound into a SQL statement's positional parameter list.
The handlers bind parsed integers, the JS `NaN` sentinel (which the
sqlite3 driver binds as NULL), and raw strings. -/
inductive SqlValue where
  | int (n : Int)
  | nan
  | str (s : String)
deriving DecidableEq, Repr

/-- JS truthiness of an optional query-string value: `if (req.query.x)`
holds exactly when the parameter is present and a non-empty string. -/
def isTruthy : Option String → Bool
  | some s => !(s == "")
  | none => false

/-- Whitespace in the sense of JS `String.prototype.trim`. -/
def isJsSpace (c : Char) : Bool :=
  c = ' ' || c = '\t' || c = '\n' || c = '\r' || c = '\x0b' || c = '\x0c' ||
    c = ' ' || c = '﻿'

/-- JS `s.trim()`: remove leading and trailing whitespace. -/
def jsTrim (s : String) : String :=
  ⟨((s.toList.dropWhile isJsSpace).reverse.dropWhile isJsSpace).reverse⟩

/-- Helper for `splitComma`: accumulates the current token reversed. -/
def splitCommaAux : List Char → List Char → List String
  | [], acc => [⟨acc.reverse⟩]
  | c :: cs, acc =>
    if c = ',' then ⟨acc.reverse⟩ :: splitCommaAux cs []
    else splitCommaAux cs (c :: acc)

/-- JS `s.split(',')`. -/
def splitComma (s : String) : List String := splitCommaAux s.toList []

/-- Decimal digit value of a character, if any. -/
def decDigit? (c : Char) : Option Nat :=
  if '0' ≤ c ∧ c ≤ '9' then some (c.toNat - '0'.toNat) else none

/-- Hexadecimal digit value of a character, if any. -/
def hexDigit? (c : Char) : Option Nat :=
  if '0' ≤ c ∧ c ≤ '9' then some (c.toNat - '0'.toNat)
  else if 'a' ≤ c ∧ c ≤ 'f' then some (c.toNat - 'a'.toNat + 10)
  else if 'A' ≤ c ∧ c ≤ 'F' then some (c.toNat - 'A'.toNat + 10)
  else none

/-- Accumulate the longest prefix of digits; `none` when no digit was read. -/
def digitsPrefix (dig : Char → Option Nat) (base : Nat) : List Char → Option Nat → Option Nat
  | [], acc => acc
  | c :: cs, acc =>
    match dig c with
    | some d => digitsPrefix dig base cs (some ((acc.getD 0) * base + d))
    | none => acc

/-- JS `parseInt(s)` with no radix argument: skip whitespace, optional
sign, `0x`/`0X` switches to base 16, longest digit prefix; `none` is the
`NaN` result. -/
def parseIntJS (s : String) : Option Int :=
  let cs := (jsTrim s).toList
  let signed : Int × List Char :=
    match cs with
    | '-' :: rest => (-1, rest)
    | '+' :: rest => (1, rest)
    | _ => (1, cs)
  match signed.2 with
  | '0' :: 'x' :: rest => (digitsPrefix hexDigit? 16 rest none).map (fun n => signed.1 * n)
  | '0' :: 'X' :: rest => (digitsPrefix hexDigit? 16 rest none).map (fun n => signed.1 * n)
  | rest => (digitsPrefix decDigit? 10 rest none).map (fun n => signed.1 * n)

/-- The number-or-NaN result of `parseInt` as a bound SQL value. -/
def sqlOfParse : Option Int → SqlValue
  | some n => SqlValue.int n
  | none => SqlValue.nan

/-- `s.split(',').map(c => parseInt(c.trim()))` from the handlers:
one bound value per comma-separated token, in parse order, malformed
tokens becoming the NaN sentinel. -/
def parseListParam (s : String) : List SqlValue :=
  (splitComma s).map (fun c => sqlOfParse (parseIntJS (jsTrim c)))

/-- JS `Array.prototype.join(sep)`. -/
def joinSep (sep : String) : List String → String
  | [] => ""
  | [s] => s
  | s :: rest => s ++ sep ++ joinSep sep rest

/-- `codes.map(() => '?').join(',')`: the placeholder list of an IN condition. -/
def placeholders (n : Nat) : String := joinSep "," (List.replicate n "?")

/-- Number of `?` placeholders in a SQL string. -/
def countQ (s : String) : Nat := s.toList.count '?'

/-! ## Store rows -/

/-- A row of table `Codes`. -/
structure CodesRow where
  code : Int
  incident_type : String
deriving DecidableEq, Repr

/-- A row of table `Neighborhoods`. -/
structure NeighborhoodRow where
  neighborhood_number : Int
  neighborhood_name : String
deriving DecidableEq, Repr

/-- A row of table `Incidents`. -/
structure Incident where
  case_number : String
  date_time : String
  code : Int
  incident : String
  police_grid : Int
  neighborhood_number : Int
  block : String
deriving DecidableEq, Repr

/-! ## SQL condition semantics

The handlers only ever push conditions of the shapes below; each is
rendered to exactly the string the JS pushes, and consumes a fixed
number of positional parameters. -/

/-- Does a bound value equal an integer column value?  A NaN binding is
NULL, and `col = NULL` is never true; the builders never bind text into
an integer IN list, and SQLite orders all numerics before all text, so a
text binding never equals an integer column value either. -/
def SqlValue.eqInt : SqlValue → Int → Bool
  | .int n, x => n == x
  | _, _ => false

/-- SQLite `date(date_time)` on a well-formed `'YYYY-MM-DD HH:MM:SS'`
string: the part before the separating space. -/
def dateOf (s : String) : String := ⟨s.toList.takeWhile (fun c => c ≠ ' ')⟩

/-- SQLite `time(date_time)` on a well-formed `'YYYY-MM-DD HH:MM:SS'`
string: the part after the separating space. -/
def timeOf (s : String) : String := ⟨(s.toList.dropWhile (fun c => c ≠ ' ')).drop 1⟩

/-- Lexicographic order on character lists by codepoint, the order
SQLite's BINARY collation induces on (UTF-8 encoded) TEXT values. -/
def charListLe : List Char → List Char → Bool
  | [], _ => true
  | _ :: _, [] => false
  | a :: as, b :: bs => if a = b then charListLe as bs else decide (a < b)

/-- SQLite BINARY comparison of two TEXT values. -/
def strLe (a b : String) : Bool := charListLe a.toList b.toList

/-- Comparison of the TEXT expression `date(date_time)` against a bound
value (`ge` selects `>=` versus `<=`).  SQLite compares TEXT with TEXT
lexicographically by bytes (which agrees with codepoint order), orders
every INTEGER before every TEXT, and a NULL comparison is never true. -/
def evalDateCmp (ge : Bool) (v : SqlValue) (d : String) : Bool :=
  match v with
  | .str s => if ge then strLe s d else strLe d s
  | .int _ => ge
  | .nan => false

/-! ## GET /codes -/

/-- Query parameters recognised by the `/codes` handler. -/
structure CodesQuery where
  code : Option String
  format : Option String
deriving DecidableEq, Repr

/-- The only condition shape `/codes` pushes: `code IN (?,...,?)` with
`n` placeholders. -/
inductive CodesCond where
  | codeIn (n : Nat)
deriving DecidableEq, Repr

def renderCodesCond : CodesCond → String
  | .codeIn n => "code IN (" ++ placeholders n ++ ")"

def codesCondArity : CodesCond → Nat
  | .codeIn n => n

/-- Condition list and ordered parameter list built by the `/codes`
handler (lines 65–74 of the source). -/
def buildCodesParts (q : CodesQuery) : List CodesCond × List SqlValue :=
  let conditions : List CodesCond := []
  let params : List SqlValue := []
  if isTruthy q.code then
    let codes := parseListParam (q.code.getD "")
    (conditions ++ [CodesCond.codeIn codes.length], params ++ codes)
  else (conditions, params)

def codesBase : String := "SELECT code, incident_type as type FROM Codes"

/-- The SQL text the `/codes` handler sends to the store. -/
def codesQueryString (q : CodesQuery) : String :=
  let conditions := (buildCodesParts q).1
  let query := codesBase
  let query :=
    if conditions.length > 0 then
      query ++ " WHERE " ++ joinSep " AND " (conditions.map renderCodesCond)
    else query
  query ++ " ORDER BY code"

/-- Positional evaluation of the `/codes` conditions against a row. -/
def evalCodesConds : List CodesCond → List SqlValue → CodesRow → Bool
  | [], _, _ => true
  | CodesCond.codeIn n :: cs, vs, r =>
    ((vs.take n).any (fun v => v.eqInt r.code)) && evalCodesConds cs (vs.drop n) r

/-- Result rows of the `/codes` query: WHERE filter, then `ORDER BY code`. -/
def runCodes (q : CodesQuery) (db : List CodesRow) : List CodesRow :=
  let (conds, ps) := buildCodesParts q
  (db.filter (fun r => evalCodesConds conds ps r)).insertionSort
    (fun a b => a.code ≤ b.code)

/-! ## GET /neighborhoods -/

/-- Query parameters recognised by the `/neighborhoods` handler. -/
structure NeighborhoodsQuery where
  id : Option String
  format : Option String
deriving DecidableEq, Repr

/-- The only condition shape `/neighborhoods` pushes:
`neighborhood_number IN (?,...,?)`. -/
inductive NeighborhoodsCond where
  | idIn (n : Nat)
deriving DecidableEq, Repr

def renderNeighborhoodsCond : NeighborhoodsCond → String
  | .idIn n => "neighborhood_number IN (" ++ placeholders n ++ ")"

def neighborhoodsCondArity : NeighborhoodsCond → Nat
  | .idIn n => n

/-- Condition list and parameter list built by the `/neighborhoods`
handler (lines 98–106 of the source). -/
def buildNeighborhoodsParts (q : NeighborhoodsQuery) :
    List NeighborhoodsCond × List SqlValue :=
  let conditions : List NeighborhoodsCond := []
  let params : List SqlValue := []
  if isTruthy q.id then
    let ids := parseListParam (q.id.getD "")
    (conditions ++ [NeighborhoodsCond.idIn ids.length], params ++ ids)
  else (conditions, params)

def neighborhoodsBase : String :=
  "SELECT neighborhood_number as id, neighborhood_name as name FROM Neighborhoods"

/-- The SQL text the `/neighborhoods` handler sends to the store. -/
def neighborhoodsQueryString (q : NeighborhoodsQuery) : String :=
  let conditions := (buildNeighborhoodsParts q).1
  let query := neighborhoodsBase
  let query :=
    if conditions.length > 0 then
      query ++ " WHERE " ++ joinSep " AND " (conditions.map renderNeighborhoodsCond)
    else query
  query ++ " ORDER BY neighborhood_number"

/-- Positional evaluation of the `/neighborhoods` conditions against a row. -/
def evalNeighborhoodsConds : List NeighborhoodsCond → List SqlValue → NeighborhoodRow → Bool
  | [], _, _ => true
  | NeighborhoodsCond.idIn n :: cs, vs, r =>
    ((vs.take n).any (fun v => v.eqInt r.neighborhood_number)) &&
      evalNeighborhoodsConds cs (vs.drop n) r

/-! ## GET /incidents -/

/-- Query parameters recognised by the `/incidents` handler. -/
structure IncidentsQuery where
  start_date : Option String
  end_date : Option String
  code : Option String
  grid : Option String
  neighborhood : Option String
  limit : Option String
deriving DecidableEq, Repr

/-- The integer columns the `/incidents` handler filters with IN lists. -/
inductive IncField where
  | code
  | police_grid
  | neighborhood_number
deriving DecidableEq, Repr

/-- The condition shapes the `/incidents` handler pushes. -/
inductive ICond where
  | inList (f : IncField) (n : Nat)
  | dateGe
  | dateLe
deriving DecidableEq, Repr

def renderICond : ICond → String
  | .inList .code n => "code IN (" ++ placeholders n ++ ")"
  | .inList .police_grid n => "police_grid IN (" ++ placeholders n ++ ")"
  | .inList .neighborhood_number n => "neighborhood_number IN (" ++ placeholders n ++ ")"
  | .dateGe => "date(date_time) >= ?"
  | .dateLe => "date(date_time) <= ?"

def condArity : ICond → Nat
  | .inList _ n => n
  | .dateGe => 1
  | .dateLe => 1

def incFieldVal : IncField → Incident → Int
  | .code, r => r.code
  | .police_grid, r => r.police_grid
  | .neighborhood_number, r => r.neighborhood_number

/-- Conditions, their ordered parameters, and the final LIMIT binding,
as built by the `/incidents` handler (lines 139–187 of the source): each
truthy parameter appends its condition and its values in source order,
then `limit` (default 1000, else `parseInt` of the raw value) is bound
for the trailing `LIMIT ?`. -/
def buildIncidentsParts (q : IncidentsQuery) :
    List ICond × List SqlValue × SqlValue :=
  let conditions : List ICond := []
  let params : List SqlValue := []
  let (conditions, params) :=
    if isTruthy q.start_date then
      (conditions ++ [ICond.dateGe], params ++ [SqlValue.str (q.start_date.getD "")])
    else (conditions, params)
  let (conditions, params) :=
    if isTruthy q.end_date then
      (conditions ++ [ICond.dateLe], params ++ [SqlValue.str (q.end_date.getD "")])
    else (conditions, params)
  let (conditions, params) :=
    if isTruthy q.code then
      let codes := parseListParam (q.code.getD "")
      (conditions ++ [ICond.inList IncField.code codes.length], params ++ codes)
    else (conditions, params)
  let (conditions, params) :=
    if isTruthy q.grid then
      let grids := parseListParam (q.grid.getD "")
      (conditions ++ [ICond.inList IncField.police_grid grids.length], params ++ grids)
    else (conditions, params)
  let (conditions, params) :=
    if isTruthy q.neighborhood then
      let neighborhoods := parseListParam (q.neighborhood.getD "")
      (conditions ++ [ICond.inList IncField.neighborhood_number neighborhoods.length],
       params ++ neighborhoods)
    else (conditions, params)
  let limit : SqlValue :=
    if isTruthy q.limit then sqlOfParse (parseIntJS (q.limit.getD ""))
    else SqlValue.int 1000
  (conditions, params, limit)

def incidentsBase : String :=
  "SELECT case_number, \n                 date(date_time) as date, \n                 time(date_time) as time, \n                 code, \n                 incident, \n                 police_grid, \n                 neighborhood_number, \n                 block \n                 FROM Incidents"

/-- The SQL text the `/incidents` handler sends to the store. -/
def incidentsQueryString (q : IncidentsQuery) : String :=
  let conditions := (buildIncidentsParts q).1
  let query := incidentsBase
  let query :=
    if conditions.length > 0 then
      query ++ " WHERE " ++ joinSep " AND " (conditions.map renderICond)
    else query
  query ++ " ORDER BY date_time DESC" ++ " LIMIT ?"

/-- The full ordered parameter list bound with the `/incidents` SQL:
filter values first, the LIMIT value last. -/
def incidentsParams (q : IncidentsQuery) : List SqlValue :=
  let (_, ps, lim) := buildIncidentsParts q
  ps ++ [lim]

/-- Positional evaluation of one `/incidents` condition against a row
(the condition sees exactly its `condArity` bound values). -/
def evalICond (c : ICond) (vs : List SqlValue) (r : Incident) : Bool :=
  match c with
  | .inList f n => (vs.take n).any (fun v => v.eqInt (incFieldVal f r))
  | .dateGe =>
    match vs with
    | [v] => evalDateCmp true v (dateOf r.date_time)
    | _ => false
  | .dateLe =>
    match vs with
    | [v] => evalDateCmp false v (dateOf r.date_time)
    | _ => false

/-- Conjunction of the pushed conditions, each consuming its bound
values positionally. -/
def evalIConds : List ICond → List SqlValue → Incident → Bool
  | [], _, _ => true
  | c :: cs, vs, r =>
    evalICond c (vs.take (condArity c)) r && evalIConds cs (vs.drop (condArity c)) r

/-- SQLite `LIMIT ?`: a non-negative integer keeps that many rows, a
negative integer means no limit, a NULL binding means no limit. -/
def sqlLimit (v : SqlValue) (rows : List Incident) : List Incident :=
  match v with
  | .int k => if k < 0 then rows else rows.take k.toNat
  | _ => rows

/-- `ORDER BY date_time DESC` as a relation: `a` precedes `b`. -/
def dateDesc (a b : Incident) : Prop := strLe b.date_time a.date_time = true

instance : DecidableRel dateDesc := fun a b =>
  inferInstanceAs (Decidable (strLe b.date_time a.date_time = true))

/-- Result rows of the `/incidents` query: WHERE filter, then
`ORDER BY date_time DESC`, then `LIMIT`. -/
def runIncidents (q : IncidentsQuery) (db : List Incident) : List Incident :=
  let (conds, ps, lim) := buildIncidentsParts q
  sqlLimit lim ((db.filter (fun r => evalIConds conds ps r)).insertionSort dateDesc)

/-- The projected output record of the `/incidents` SELECT: date and
time parts split out of `date_time`, other columns passed through. -/
structure IncidentOut where
  case_number : String
  date : String
  time : String
  code : Int
  incident : String
  police_grid : Int
  neighborhood_number : Int
  block : String
deriving DecidableEq, Repr

def projectIncident (r : Incident) : IncidentOut :=
  ⟨r.case_number, dateOf r.date_time, timeOf r.date_time, r.code, r.incident,
   r.police_grid, r.neighborhood_number, r.block⟩

/-- The records the `/incidents` handler serialises. -/
def runIncidentsOut (q : IncidentsQuery) (db : List Incident) : List IncidentOut :=
  (runIncidents q db).map projectIncident

/-- Number of store rows matching the `/incidents` filters of `q`
(the result size before LIMIT is applied). -/
def matchCount (q : IncidentsQuery) (db : List Incident) : Nat :=
  (db.filter (fun r =>
    evalIConds (buildIncidentsParts q).1 (buildIncidentsParts q).2.1 r)).length

/-! ## PUT /new-incident and DELETE /remove-incident -/

/-- The JSON body of a PUT `/new-incident` request. -/
structure NewIncidentBody where
  case_number : String
  date : String
  time : String
  code : Int
  incident : String
  police_grid : Int
  neighborhood_number : Int
  block : String
deriving DecidableEq, Repr

/-- Outcome of a mutation handler: the store afterwards, the HTTP
status, and the text body sent. -/
structure MutationResult where
  db : List Incident
  status : Nat
  body : String
deriving DecidableEq, Repr

/-- The row the PUT handler inserts: `date_time` is the single-space
concatenation of the `date` and `time` body fields. -/
def rowOfBody (b : NewIncidentBody) : Incident :=
  ⟨b.case_number, b.date ++ " " ++ b.time, b.code, b.incident, b.police_grid,
   b.neighborhood_number, b.block⟩

/-- PUT `/new-incident` (lines 198–225 of the source): look up the
case_number by exact match; if any row exists answer 500 with a fixed
text and change nothing, otherwise insert the new row and answer 200. -/
def newIncident (db : List Incident) (b : NewIncidentBody) : MutationResult :=
  let existingCase := db.filter (fun r => r.case_number == b.case_number)
  if existingCase.length > 0 then
    ⟨db, 500, "Case number already exists in database"⟩
  else
    ⟨db ++ [rowOfBody b], 200, "OK"⟩

/-- DELETE `/remove-incident` (lines 228–256 of the source): look up the
case_number; if no row exists answer 500 with a fixed text and change
nothing, otherwise delete every row with that exact case_number and
answer 200. -/
def removeIncident (db : List Incident) (case_number : String) : MutationResult :=
  let existingCase := db.filter (fun r => r.case_number == case_number)
  if existingCase.length == 0 then
    ⟨db, 500, "Case number does not exist in database"⟩
  else
    ⟨db.filter (fun r => !(r.case_number == case_number)), 200, "OK"⟩

def checkCaseQuery : String := "SELECT case_number FROM Incidents WHERE case_number = ?"

def insertIncidentQuery : String :=
  "INSERT INTO Incidents (case_number, date_time, code, incident, police_grid, neighborhood_number, block) \n                             VALUES (?, ?, ?, ?, ?, ?, ?)"

def deleteIncidentQuery : String := "DELETE FROM Incidents WHERE case_number = ?"

/-- The (SQL text, bound parameters) statements the PUT handler hands to
the store, in order. -/
def newIncidentStmts (db : List Incident) (b : NewIncidentBody) :
    List (String × List SqlValue) :=
  let existingCase := db.filter (fun r => r.case_number == b.case_number)
  if existingCase.length > 0 then
    [(checkCaseQuery, [SqlValue.str b.case_number])]
  else
    [(checkCaseQuery, [SqlValue.str b.case_number]),
     (insertIncidentQuery,
      [SqlValue.str b.case_number, SqlValue.str (b.date ++ " " ++ b.time),
       SqlValue.int b.code, SqlValue.str b.incident, SqlValue.int b.police_grid,
       SqlValue.int b.neighborhood_number, SqlValue.str b.block])]

/-- The (SQL text, bound parameters) statements the DELETE handler hands
to the store, in order. -/
def removeIncidentStmts (db : List Incident) (case_number : String) :
    List (String × List SqlValue) :=
  let existingCase := db.filter (fun r => r.case_number == case_number)
  if existingCase.length == 0 then
    [(checkCaseQuery, [SqlValue.str case_number])]
  else
    [(checkCaseQuery, [SqlValue.str case_number]),
     (deleteIncidentQuery, [SqlValue.str case_number])]

/-! ## JSON serialisation of the list endpoints -/

/-- `'format' in req.query && req.query.format === 'plain'`. -/
def formatIsPlain : Option String → Bool
  | some f => f == "plain"
  | none => false

/-- Lower-case hexadecimal digit. -/
def hexDigitChar (n : Nat) : Char :=
  if n < 10 then Char.ofNat ('0'.toNat + n) else Char.ofNat ('a'.toNat + (n - 10))

/-- `JSON.stringify` escaping of one character inside a string literal. -/
def escapeJsonChar (c : Char) : List Char :=
  if c = '"' then ['\\', '"']
  else if c = '\\' then ['\\', '\\']
  else if c = '\x08' then ['\\', 'b']
  else if c = '\x09' then ['\\', 't']
  else if c = '\x0a' then ['\\', 'n']
  else if c = '\x0c' then ['\\', 'f']
  else if c = '\x0d' then ['\\', 'r']
  else if c.toNat < 0x20 then
    ['\\', 'u', '0', '0', hexDigitChar (c.toNat / 16), hexDigitChar (c.toNat % 16)]
  else [c]

/-- `JSON.stringify` of a string value. -/
def jsonQuote (s : String) : String :=
  ⟨'"' :: (s.toList.map escapeJsonChar).flatten ++ ['"']⟩

/-- `JSON.stringify` of an integer-valued number. -/
def renderInt (n : Int) : String := n.repr

/-- `JSON.stringify` of one `/codes` row (columns aliased to
`code`/`type`, in insertion order). -/
def renderCodesRow (r : CodesRow) : String :=
  "\x7b\"code\":" ++ renderInt r.code ++ ",\"type\":" ++ jsonQuote r.incident_type ++ "\x7d"

/-- `JSON.stringify` of one `/neighborhoods` row (columns aliased to
`id`/`name`). -/
def renderNeighborhoodRow (r : NeighborhoodRow) : String :=
  "\x7b\"id\":" ++ renderInt r.neighborhood_number ++ ",\"name\":" ++
    jsonQuote r.neighborhood_name ++ "\x7d"

/-- The compact array-of-objects body (`res.send(rows)` serialises with
`JSON.stringify`). -/
def plainArray (recs : List String) : String := "[" ++ joinSep "," recs ++ "]"

/-- The custom textual rendering:
`'[\n' + rows.map(c => '  ' + JSON.stringify(c)).join(',\n') + '\n]'`. -/
def customArray (recs : List String) : String :=
  "[\n" ++ joinSep ",\n" (recs.map (fun r => "  " ++ r)) ++ "\n]"

/-- Body of a successful `/codes` response. -/
def codesBody (q : CodesQuery) (rows : List CodesRow) : String :=
  if formatIsPlain q.format then plainArray (rows.map renderCodesRow)
  else customArray (rows.map renderCodesRow)

/-- Body of a successful `/neighborhoods` response. -/
def neighborhoodsBody (q : NeighborhoodsQuery) (rows : List NeighborhoodRow) : String :=
  if formatIsPlain q.format then plainArray (rows.map renderNeighborhoodRow)
  else customArray (rows.map renderNeighborhoodRow)

/-! ## JSON-insignificant whitespace

Two JSON texts are semantically equal when they agree after deleting
whitespace that occurs outside string literals.  The deletion is a
one-pass scanner whose state records whether we are inside a string
literal and whether the previous character was an unconsumed escape
backslash. -/

def isJsonWs (c : Char) : Bool := c = ' ' || c = '\n' || c = '\t' || c = '\r'

/-- One scanner step: output characters and next state. -/
def stripStep : Bool × Bool → Char → List Char × (Bool × Bool)
  | (false, _), c =>
    if isJsonWs c then ([], (false, false))
    else if c = '"' then ([c], (true, false))
    else ([c], (false, false))
  | (true, esc), c =>
    ([c],
     if esc then (true, false)
     else if c = '\\' then (true, true)
     else if c = '"' then (false, false)
     else (true, false))

/-- Run the scanner over a character list. -/
def stripScan : Bool × Bool → List Char → List Char × (Bool × Bool)
  | st, [] => ([], st)
  | st, c :: cs =>
    let p := stripStep st c
    let rest := stripScan p.2 cs
    (p.1 ++ rest.1, rest.2)

/-- Delete JSON-insignificant whitespace (whitespace outside string
literals). -/
def stripJsonWs (s : String) : String := ⟨(stripScan (false, false) s.toList).1⟩

/-! ## Query shapes

The "shape" of a request records only which parameters are present
(truthy) and how many comma-separated tokens each list parameter has —
never the parameter values themselves. -/

/-- Number of comma-separated tokens of a raw list parameter. -/
def numTokens (s : String) : Nat := (splitComma s).length

/-- Shape of a `/codes` request: token count of `code` when truthy. -/
def codesShape (q : CodesQuery) : Option Nat :=
  if isTruthy q.code then some (numTokens (q.code.getD "")) else none

/-- Shape of a `/neighborhoods` request: token count of `id` when truthy. -/
def neighborhoodsShape (q : NeighborhoodsQuery) : Option Nat :=
  if isTruthy q.id then some (numTokens (q.id.getD "")) else none

/-- Shape of an `/incidents` request: presence of the two date bounds
and token counts of the three list parameters. -/
def incidentsShape (q : IncidentsQuery) :
    Bool × Bool × Option Nat × Option Nat × Option Nat :=
  (isTruthy q.start_date, isTruthy q.end_date,
   if isTruthy q.code then some (numTokens (q.code.getD "")) else none,
   if isTruthy q.grid then some (numTokens (q.grid.getD "")) else none,
   if isTruthy q.neighborhood then some (numTokens (q.neighborhood.getD "")) else none)

/-- The `/incidents` condition list as a function of the shape alone. -/
def condsOfShape : Bool × Bool × Option Nat × Option Nat × Option Nat → List ICond
  | (sd, ed, c, g, n) =>
    (if sd then [ICond.dateGe] else []) ++ (if ed then [ICond.dateLe] else []) ++
    (c.elim [] fun k => [ICond.inList IncField.code k]) ++
    (g.elim [] fun k => [ICond.inList IncField.police_grid k]) ++
    (n.elim [] fun k => [ICond.inList IncField.neighborhood_number k])

/-! ## Helper lemmas -/

theorem filter_case_pos (db : List Incident) (cn : String) :
    0 < (db.filter (fun r => r.case_number == cn)).length ↔
      ∃ r ∈ db, r.case_number = cn := by
  rw [List.length_pos_iff_exists_mem]
  constructor
  · rintro ⟨r, hr⟩
    rw [List.mem_filter] at hr
    exact ⟨r, hr.1, by simpa using hr.2⟩
  · rintro ⟨r, hmem, hcn⟩
    exact ⟨r, List.mem_filter.mpr ⟨hmem, by simpa using hcn⟩⟩

/-- Closed form of the `/incidents` builder: each truthy parameter
contributes its condition and its parameter segment, in source order. -/
theorem buildIncidentsParts_eq (q : IncidentsQuery) :
    buildIncidentsParts q =
      ((if isTruthy q.start_date then [ICond.dateGe] else []) ++
       (if isTruthy q.end_date then [ICond.dateLe] else []) ++
       (if isTruthy q.code then
          [ICond.inList IncField.code (parseListParam (q.code.getD "")).length] else []) ++
       (if isTruthy q.grid then
          [ICond.inList IncField.police_grid (parseListParam (q.grid.getD "")).length] else []) ++
       (if isTruthy q.neighborhood then
          [ICond.inList IncField.neighborhood_number
            (parseListParam (q.neighborhood.getD "")).length] else []),
       (if isTruthy q.start_date then [SqlValue.str (q.start_date.getD "")] else []) ++
       (if isTruthy q.end_date then [SqlValue.str (q.end_date.getD "")] else []) ++
       (if isTruthy q.code then parseListParam (q.code.getD "") else []) ++
       (if isTruthy q.grid then parseListParam (q.grid.getD "") else []) ++
       (if isTruthy q.neighborhood then parseListParam (q.neighborhood.getD "") else []),
       (if isTruthy q.limit then sqlOfParse (parseIntJS (q.limit.getD ""))
        else SqlValue.int 1000)) := by
  unfold buildIncidentsParts
  by_cases h1 : isTruthy q.start_date <;> by_cases h2 : isTruthy q.end_date <;>
    by_cases h3 : isTruthy q.code <;> by_cases h4 : isTruthy q.grid <;>
    by_cases h5 : isTruthy q.neighborhood <;>
    simp [h1, h2, h3, h4, h5]

theorem parseListParam_length (s : String) :
    (parseListParam s).length = numTokens s := by
  simp [parseListParam, numTokens]

theorem countQ_append (a b : String) : countQ (a ++ b) = countQ a + countQ b := by
  simp [countQ, String.toList]

theorem countQ_joinSep (sep : String) (hsep : countQ sep = 0) (l : List String) :
    countQ (joinSep sep l) = (l.map countQ).sum := by
  induction l with
  | nil => simp [joinSep, countQ]
  | cons s rest ih =>
    cases rest with
    | nil => simp [joinSep]
    | cons t ts =>
      simp only [joinSep, countQ_append, hsep, List.map_cons, List.sum_cons] at *
      omega

theorem countQ_placeholders (n : Nat) : countQ (placeholders n) = n := by
  unfold placeholders
  rw [countQ_joinSep "," (by decide)]
  have h1 : countQ "?" = 1 := by decide
  simp [List.map_replicate, h1, List.sum_replicate]

theorem countQ_renderICond (c : ICond) : countQ (renderICond c) = condArity c := by
  have h1 : countQ "code IN (" = 0 := by decide
  have h2 : countQ "police_grid IN (" = 0 := by decide
  have h3 : countQ "neighborhood_number IN (" = 0 := by decide
  have h4 : countQ ")" = 0 := by decide
  cases c with
  | inList f n =>
    cases f <;>
      simp [renderICond, condArity, countQ_append, countQ_placeholders, h1, h2, h3, h4]
  | dateGe => decide
  | dateLe => decide

set_option maxRecDepth 16000

/-- Placeholders in the `/incidents` SQL text: one per condition arity
plus the trailing `LIMIT ?`. -/
theorem countQ_incidentsQueryString (q : IncidentsQuery) :
    countQ (incidentsQueryString q) =
      (((buildIncidentsParts q).1.map condArity).sum) + 1 := by
  unfold incidentsQueryString
  by_cases hc : ((buildIncidentsParts q).1.length > 0)
  · simp only [hc, if_pos, countQ_append]
    rw [countQ_joinSep " AND " (by decide)]
    have hbase : countQ incidentsBase = 0 := by decide
    have hord : countQ " ORDER BY date_time DESC" = 0 := by decide
    have hwhere : countQ " WHERE " = 0 := by decide
    have hlim : countQ " LIMIT ?" = 1 := by decide
    rw [List.map_map]
    have : (countQ ∘ renderICond) = condArity := funext countQ_renderICond
    rw [this, hbase, hwhere, hord, hlim]
    omega
  · have hnil : (buildIncidentsParts q).1 = [] := by
      simpa using List.eq_nil_of_length_eq_zero (by omega)
    simp only [hc, if_neg, if_false, countQ_append, hnil]
    decide

/-- The `/incidents` filter parameter list is as long as the summed
condition arities. -/
theorem incidentsParams_length (q : IncidentsQuery) :
    (buildIncidentsParts q).2.1.length =
      ((buildIncidentsParts q).1.map condArity).sum := by
  rw [buildIncidentsParts_eq]
  by_cases h1 : isTruthy q.start_date <;> by_cases h2 : isTruthy q.end_date <;>
    by_cases h3 : isTruthy q.code <;> by_cases h4 : isTruthy q.grid <;>
    by_cases h5 : isTruthy q.neighborhood <;>
    simp [h1, h2, h3, h4, h5, condArity] <;> omega

theorem countQ_renderCodesCond (c : CodesCond) :
    countQ (renderCodesCond c) = codesCondArity c := by
  have ha : countQ "code IN (" = 0 := by decide
  have hb : countQ ")" = 0 := by decide
  cases c with
  | codeIn n => simp [renderCodesCond, codesCondArity, countQ_append, countQ_placeholders, ha, hb]

theorem countQ_renderNeighborhoodsCond (c : NeighborhoodsCond) :
    countQ (renderNeighborhoodsCond c) = neighborhoodsCondArity c := by
  have ha : countQ "neighborhood_number IN (" = 0 := by decide
  have hb : countQ ")" = 0 := by decide
  cases c with
  | idIn n =>
    simp [renderNeighborhoodsCond, neighborhoodsCondArity, countQ_append,
      countQ_placeholders, ha, hb]

theorem countQ_codesQueryString (q : CodesQuery) :
    countQ (codesQueryString q) = ((buildCodesParts q).1.map codesCondArity).sum := by
  have hc0 : countQ codesBase = 0 := by decide
  have hw : countQ " WHERE " = 0 := by decide
  have ho : countQ " ORDER BY code" = 0 := by decide
  by_cases h : isTruthy q.code <;>
    simp [codesQueryString, buildCodesParts, h, countQ_append, joinSep, hc0, hw, ho,
      countQ_renderCodesCond, codesCondArity]

theorem codesParams_length (q : CodesQuery) :
    (buildCodesParts q).2.length = ((buildCodesParts q).1.map codesCondArity).sum := by
  by_cases h : isTruthy q.code <;> simp [buildCodesParts, h, codesCondArity]

theorem countQ_neighborhoodsQueryString (q : NeighborhoodsQuery) :
    countQ (neighborhoodsQueryString q) =
      ((buildNeighborhoodsParts q).1.map neighborhoodsCondArity).sum := by
  have hc0 : countQ neighborhoodsBase = 0 := by decide
  have hw : countQ " WHERE " = 0 := by decide
  have ho : countQ " ORDER BY neighborhood_number" = 0 := by decide
  by_cases h : isTruthy q.id <;>
    simp [neighborhoodsQueryString, buildNeighborhoodsParts, h, countQ_append, joinSep,
      hc0, hw, ho, countQ_renderNeighborhoodsCond, neighborhoodsCondArity]

theorem neighborhoodsParams_length (q : NeighborhoodsQuery) :
    (buildNeighborhoodsParts q).2.length =
      ((buildNeighborhoodsParts q).1.map neighborhoodsCondArity).sum := by
  by_cases h : isTruthy q.id <;> simp [buildNeighborhoodsParts, h, neighborhoodsCondArity]

theorem incidentsParams_eq (q : IncidentsQuery) :
    incidentsParams q = (buildIncidentsParts q).2.1 ++ [(buildIncidentsParts q).2.2] := rfl

/-- The `/codes` condition list is a function of the request shape. -/
theorem codesConds_eq_shape (q : CodesQuery) :
    (buildCodesParts q).1 = (codesShape q).elim [] (fun k => [CodesCond.codeIn k]) := by
  by_cases h : isTruthy q.code <;>
    simp [buildCodesParts, codesShape, h, parseListParam_length]

/-- The `/neighborhoods` condition list is a function of the request shape. -/
theorem neighborhoodsConds_eq_shape (q : NeighborhoodsQuery) :
    (buildNeighborhoodsParts q).1 =
      (neighborhoodsShape q).elim [] (fun k => [NeighborhoodsCond.idIn k]) := by
  by_cases h : isTruthy q.id <;>
    simp [buildNeighborhoodsParts, neighborhoodsShape, h, parseListParam_length]

/-- The `/incidents` condition list is a function of the request shape. -/
theorem incidentsConds_eq_shape (q : IncidentsQuery) :
    (buildIncidentsParts q).1 = condsOfShape (incidentsShape q) := by
  rw [buildIncidentsParts_eq]
  by_cases h1 : isTruthy q.start_date <;> by_cases h2 : isTruthy q.end_date <;>
    by_cases h3 : isTruthy q.code <;> by_cases h4 : isTruthy q.grid <;>
    by_cases h5 : isTruthy q.neighborhood <;>
    simp [condsOfShape, incidentsShape, h1, h2, h3, h4, h5, parseListParam_length]

/-! ## C3: create with duplicate case_number fails, fresh one inserts -/

/-- **C3.** A PUT `/new-incident` whose case_number exactly matches an
existing row answers 500 `Case number already exists in database` and
leaves the store unchanged (same row count); one whose case_number
matches no row appends exactly the new row and answers 200 `OK`. -/
theorem c3_new_incident (db : List Incident) (b : NewIncidentBody) :
    ((∃ r ∈ db, r.case_number = b.case_number) →
      newIncident db b = ⟨db, 500, "Case number already exists in database"⟩ ∧
      (newIncident db b).db.length = db.length) ∧
    ((∀ r ∈ db, r.case_number ≠ b.case_number) →
      newIncident db b = ⟨db ++ [rowOfBody b], 200, "OK"⟩) := by
  constructor
  · intro hex
    have hpos : 0 < (db.filter (fun r => r.case_number == b.case_number)).length :=
      (filter_case_pos db b.case_number).mpr hex
    have h : newIncident db b = ⟨db, 500, "Case number already exists in database"⟩ := by
      unfold newIncident
      simp only [gt_iff_lt, hpos, if_pos]
    exact ⟨h, by rw [h]⟩
  · intro hnone
    have hzero : ¬ 0 < (db.filter (fun r => r.case_number == b.case_number)).length := by
      intro hpos
      rcases (filter_case_pos db b.case_number).mp hpos with ⟨r, hmem, hcn⟩
      exact hnone r hmem hcn
    unfold newIncident
    simp only [gt_iff_lt, hzero, if_neg, if_false]

/-- Witness for C3 at concrete inputs: a duplicate create is rejected
unchanged, a fresh create appends the row. -/
theorem c3_new_incident_witness :
    newIncident [⟨"CN1", "2023-01-02 10:00:00", 1, "theft", 5, 7, "1 MAIN ST"⟩]
        ⟨"CN1", "2023-01-02", "10:00:00", 1, "theft", 5, 7, "1 MAIN ST"⟩ =
      ⟨[⟨"CN1", "2023-01-02 10:00:00", 1, "theft", 5, 7, "1 MAIN ST"⟩], 500,
        "Case number already exists in database"⟩ ∧
    newIncident [⟨"CN1", "2023-01-02 10:00:00", 1, "theft", 5, 7, "1 MAIN ST"⟩]
        ⟨"CN2", "2023-01-03", "11:00:00", 2, "arson", 6, 8, "2 OAK AVE"⟩ =
      ⟨[⟨"CN1", "2023-01-02 10:00:00", 1, "theft", 5, 7, "1 MAIN ST"⟩] ++
        [rowOfBody ⟨"CN2", "2023-01-03", "11:00:00", 2, "arson", 6, 8, "2 OAK AVE"⟩],
        200, "OK"⟩ :=
  ⟨((c3_new_incident _ _).1 (by decide)).1, (c3_new_incident _ _).2 (by decide)⟩

/-! ## C4: delete of missing case_number fails, existing one removes all matches -/

/-- **C4.** A DELETE `/remove-incident` whose case_number matches no row
answers 500 `Case number does not exist in database` and leaves the
store unchanged; one whose case_number matches at least one row removes
every row with that exact case_number and answers 200 `OK` — exactly one
row when the uniqueness invariant (one matching row) holds. -/
theorem c4_remove_incident (db : List Incident) (cn : String) :
    ((∀ r ∈ db, r.case_number ≠ cn) →
      removeIncident db cn = ⟨db, 500, "Case number does not exist in database"⟩) ∧
    ((∃ r ∈ db, r.case_number = cn) →
      removeIncident db cn =
        ⟨db.filter (fun r => !(r.case_number == cn)), 200, "OK"⟩ ∧
      ∀ r ∈ (removeIncident db cn).db, r.case_number ≠ cn) ∧
    ((db.filter (fun r => r.case_number == cn)).length = 1 →
      (removeIncident db cn).db.length + 1 = db.length) := by
  refine ⟨?_, ?_, ?_⟩
  · intro hnone
    have hzero : (db.filter (fun r => r.case_number == cn)).length = 0 := by
      rw [List.length_eq_zero, List.filter_eq_nil_iff]
      intro r hmem
      simpa using hnone r hmem
    unfold removeIncident
    simp only [hzero, beq_self_eq_true, if_pos]
  · intro hex
    have hpos : 0 < (db.filter (fun r => r.case_number == cn)).length :=
      (filter_case_pos db cn).mpr hex
    have hne : ¬ ((db.filter (fun r => r.case_number == cn)).length == 0) = true := by
      simp only [beq_iff_eq]
      omega
    have h : removeIncident db cn =
        ⟨db.filter (fun r => !(r.case_number == cn)), 200, "OK"⟩ := by
      unfold removeIncident
      simp [hne]
    refine ⟨h, ?_⟩
    rw [h]
    intro r hr hcn
    rw [List.mem_filter] at hr
    simp [hcn] at hr
  · intro hone
    have hne : ¬ ((db.filter (fun r => r.case_number == cn)).length == 0) = true := by
      simp only [beq_iff_eq]
      omega
    have h : (removeIncident db cn).db = db.filter (fun r => !(r.case_number == cn)) := by
      unfold removeIncident
      simp [hne]
    rw [h]
    have := List.length_eq_length_filter_add (l := db) (fun r => r.case_number == cn)
    omega

/-- Witness for C4 at concrete inputs: deleting a missing case_number is
rejected unchanged; deleting an existing one removes exactly that row. -/
theorem c4_remove_incident_witness :
    removeIncident [⟨"CN1", "2023-01-02 10:00:00", 1, "theft", 5, 7, "1 MAIN ST"⟩] "CNX" =
      ⟨[⟨"CN1", "2023-01-02 10:00:00", 1, "theft", 5, 7, "1 MAIN ST"⟩], 500,
        "Case number does not exist in database"⟩ ∧
    removeIncident [⟨"CN1", "2023-01-02 10:00:00", 1, "theft", 5, 7, "1 MAIN ST"⟩,
        ⟨"CN2", "2023-01-03 11:00:00", 2, "arson", 6, 8, "2 OAK AVE"⟩] "CN1" =
      ⟨[⟨"CN1", "2023-01-02 10:00:00", 1, "theft", 5, 7, "1 MAIN ST"⟩,
        ⟨"CN2", "2023-01-03 11:00:00", 2, "arson", 6, 8, "2 OAK AVE"⟩].filter
          (fun r => !(r.case_number == "CN1")), 200, "OK"⟩ ∧
    (removeIncident [⟨"CN1", "2023-01-02 10:00:00", 1, "theft", 5, 7, "1 MAIN ST"⟩,
        ⟨"CN2", "2023-01-03 11:00:00", 2, "arson", 6, 8, "2 OAK AVE"⟩] "CN1").db.length + 1 = 2 :=
  ⟨(c4_remove_incident _ _).1 (by decide),
   ((c4_remove_incident _ _).2.1 (by decide)).1,
   (c4_remove_incident _ _).2.2 (by decide)⟩

/-! ## C10: placeholder count always equals parameter count -/

/-- **C10.** For every `/codes`, `/neighborhoods` and `/incidents`
request, the SQL statement handed to the store contains exactly as many
`?` placeholders as there are entries in the accompanying parameter list
(each list token one of each; each of start_date, end_date and limit one
of each). -/
theorem c10_placeholders_match_params (qc : CodesQuery) (qn : NeighborhoodsQuery)
    (qi : IncidentsQuery) :
    countQ (codesQueryString qc) = (buildCodesParts qc).2.length ∧
    countQ (neighborhoodsQueryString qn) = (buildNeighborhoodsParts qn).2.length ∧
    countQ (incidentsQueryString qi) = (incidentsParams qi).length := by
  refine ⟨?_, ?_, ?_⟩
  · rw [countQ_codesQueryString, codesParams_length]
  · rw [countQ_neighborhoodsQueryString, neighborhoodsParams_length]
  · rw [countQ_incidentsQueryString, incidentsParams_eq]
    rw [List.length_append, incidentsParams_length]
    simp

/-! ## C1: SQL text depends only on the request shape, never on values -/

/-- **C1.** Client-supplied literals are passed to the store only in the
ordered bound-parameter list: the SQL text of each GET endpoint is a
function of the request shape alone (which parameters are truthy and how
many comma-separated tokens each list parameter has), and the mutation
handlers only ever issue the fixed constant statements, all values
appearing exclusively in the parameter lists. -/
theorem c1_sql_text_value_independent
    (qc qc' : CodesQuery) (qn qn' : NeighborhoodsQuery) (qi qi' : IncidentsQuery)
    (db db' : List Incident) (b : NewIncidentBody) (cn : String)
    (hqc : codesShape qc = codesShape qc')
    (hqn : neighborhoodsShape qn = neighborhoodsShape qn')
    (hqi : incidentsShape qi = incidentsShape qi') :
    codesQueryString qc = codesQueryString qc' ∧
    neighborhoodsQueryString qn = neighborhoodsQueryString qn' ∧
    incidentsQueryString qi = incidentsQueryString qi' ∧
    (∀ st ∈ newIncidentStmts db b, st.1 = checkCaseQuery ∨ st.1 = insertIncidentQuery) ∧
    (∀ st ∈ removeIncidentStmts db' cn, st.1 = checkCaseQuery ∨ st.1 = deleteIncidentQuery) := by
  refine ⟨?_, ?_, ?_, ?_, ?_⟩
  · have h : (buildCodesParts qc).1 = (buildCodesParts qc').1 := by
      rw [codesConds_eq_shape, codesConds_eq_shape, hqc]
    simp only [codesQueryString]
    rw [h]
  · have h : (buildNeighborhoodsParts qn).1 = (buildNeighborhoodsParts qn').1 := by
      rw [neighborhoodsConds_eq_shape, neighborhoodsConds_eq_shape, hqn]
    simp only [neighborhoodsQueryString]
    rw [h]
  · have h : (buildIncidentsParts qi).1 = (buildIncidentsParts qi').1 := by
      rw [incidentsConds_eq_shape, incidentsConds_eq_shape, hqi]
    simp only [incidentsQueryString]
    rw [h]
  · intro st hst
    unfold newIncidentStmts at hst
    by_cases hc : (db.filter (fun r => r.case_number == b.case_number)).length > 0
    · simp only [hc, if_pos, List.mem_singleton] at hst
      left
      rw [hst]
    · simp only [hc, if_neg, if_false, List.mem_cons, List.mem_singleton,
        List.not_mem_nil, or_false] at hst
      rcases hst with h | h
      · left
        rw [h]
      · right
        rw [h]
  · intro st hst
    unfold removeIncidentStmts at hst
    show st.1 = checkCaseQuery ∨ st.1 = deleteIncidentQuery
    by_cases hc : ((db'.filter (fun r => r.case_number == cn)).length == 0) = true
    · simp only [hc, if_pos, List.mem_singleton] at hst
      left
      rw [hst]
    · simp only [hc, if_neg, if_false] at hst
      rcases List.mem_cons.mp hst with h | h
      · left
        rw [h]
      · right
        rw [List.mem_singleton.mp h]

/-- Witness for C1: two `/codes`, `/neighborhoods` and `/incidents`
requests with the same shape but entirely different literal values
generate identical SQL texts. -/
theorem c1_sql_text_value_independent_witness :
    codesQueryString ⟨some "1,2", none⟩ = codesQueryString ⟨some "999,abc", some "plain"⟩ ∧
    neighborhoodsQueryString ⟨some "7", none⟩ = neighborhoodsQueryString ⟨some "-42", none⟩ ∧
    incidentsQueryString ⟨some "2020-01-01", none, some "1,2,3", none, none, some "10"⟩ =
      incidentsQueryString ⟨some "9999-12-31", none, some "a,b,c", none, none, some "777777"⟩ := by
  have h := c1_sql_text_value_independent
    ⟨some "1,2", none⟩ ⟨some "999,abc", some "plain"⟩
    ⟨some "7", none⟩ ⟨some "-42", none⟩
    ⟨some "2020-01-01", none, some "1,2,3", none, none, some "10"⟩
    ⟨some "9999-12-31", none, some "a,b,c", none, none, some "777777"⟩
    [] [] ⟨"CN1", "2023-01-02", "10:00:00", 1, "theft", 5, 7, "X"⟩ "CN1"
    (by decide) (by decide) (by decide)
  exact ⟨h.1, h.2.1, h.2.2.1⟩

/-! ## C6: malformed list tokens become the NaN sentinel, kept in place -/

/-- **C6.** A comma-separated token that does not parse as an integer
becomes the NaN sentinel and is not dropped: the parsed value list is
exactly as long as the token list, the sentinel sits at the token's
original index, and on `/codes` (and the `code` parameter of
`/incidents`) the built IN condition still carries one placeholder per
token with the full value list bound. -/
theorem c6_malformed_token_kept (s : String) (i : Nat) (t : String)
    (hs : s ≠ "") (ht : (splitComma s)[i]? = some t)
    (hbad : parseIntJS (jsTrim t) = none) :
    (parseListParam s).length = (splitComma s).length ∧
    (parseListParam s)[i]? = some SqlValue.nan ∧
    buildCodesParts ⟨some s, none⟩ =
      ([CodesCond.codeIn (splitComma s).length], parseListParam s) ∧
    countQ (codesQueryString ⟨some s, none⟩) = (splitComma s).length ∧
    buildIncidentsParts ⟨none, none, some s, none, none, none⟩ =
      ([ICond.inList IncField.code (splitComma s).length], parseListParam s,
        SqlValue.int 1000) ∧
    countQ (incidentsQueryString ⟨none, none, some s, none, none, none⟩) =
      (splitComma s).length + 1 := by
  have htr : isTruthy (some s) = true := by simpa [isTruthy] using hs
  refine ⟨by simp [parseListParam], ?_, ?_, ?_, ?_, ?_⟩
  · unfold parseListParam
    rw [List.getElem?_map, ht]
    simp [hbad, sqlOfParse]
  · simp [buildCodesParts, htr, parseListParam_length, numTokens]
  · rw [countQ_codesQueryString, codesConds_eq_shape]
    simp [codesShape, htr, numTokens, codesCondArity]
  · rw [buildIncidentsParts_eq]
    simp [htr, isTruthy, hs, parseListParam_length, numTokens]
  · rw [countQ_incidentsQueryString, incidentsConds_eq_shape]
    simp [incidentsShape, condsOfShape, htr, isTruthy, hs, numTokens, condArity]

/-- Witness for C6: in `code=1,x,3` the malformed middle token `x` still
contributes its placeholder and a NaN parameter at index 1. -/
theorem c6_malformed_token_kept_witness :
    (parseListParam "1,x,3").length = 3 ∧
    (parseListParam "1,x,3")[1]? = some SqlValue.nan ∧
    countQ (codesQueryString ⟨some "1,x,3", none⟩) = 3 := by
  have h := c6_malformed_token_kept "1,x,3" 1 "x" (by decide) (by decide) (by decide)
  refine ⟨?_, h.2.1, ?_⟩
  · rw [h.1]
    decide
  · rw [h.2.2.2.1]
    decide

/-! ## C2: IN filters select exactly the members of the list -/

theorem any_eqInt_int_list (L : List Int) (x : Int) :
    ((L.map SqlValue.int).any (fun v => v.eqInt x)) = true ↔ x ∈ L := by
  induction L with
  | nil => simp
  | cons a l ih =>
    simp only [List.map_cons, List.any_cons, Bool.or_eq_true, ih, List.mem_cons]
    constructor
    · rintro (h | h)
      · left
        exact (beq_iff_eq.mp h).symm
      · right
        exact h
    · rintro (h | h)
      · left
        exact beq_iff_eq.mpr h.symm
      · right
        exact h

theorem take_length_any_eqInt (L : List Int) (x : Int) :
    (((L.map SqlValue.int).take (L.map SqlValue.int).length).any
      (fun v => v.eqInt x)) = true ↔ x ∈ L := by
  rw [List.take_length]
  exact any_eqInt_int_list L x

/-- **C2.** For every valid comma-separated integer list `L` supplied as
`code` on `/codes`, `id` on `/neighborhoods`, or `code`/`grid`/
`neighborhood` on `/incidents`, the built IN filter matches exactly the
rows whose corresponding field value is a member of `L`, and no others
(and `/codes` returns exactly the matching rows of the store). -/
theorem c2_in_filter_exact (s : String) (L : List Int) (fmt lim : Option String)
    (hs : s ≠ "") (hL : parseListParam s = L.map SqlValue.int) :
    (∀ r : CodesRow,
      (evalCodesConds (buildCodesParts ⟨some s, fmt⟩).1 (buildCodesParts ⟨some s, fmt⟩).2 r
        = true) ↔ r.code ∈ L) ∧
    (∀ (db : List CodesRow) (r : CodesRow),
      r ∈ runCodes ⟨some s, fmt⟩ db ↔ r ∈ db ∧ r.code ∈ L) ∧
    (∀ r : NeighborhoodRow,
      (evalNeighborhoodsConds (buildNeighborhoodsParts ⟨some s, fmt⟩).1
        (buildNeighborhoodsParts ⟨some s, fmt⟩).2 r = true) ↔ r.neighborhood_number ∈ L) ∧
    (∀ r : Incident,
      (evalIConds (buildIncidentsParts ⟨none, none, some s, none, none, lim⟩).1
        (buildIncidentsParts ⟨none, none, some s, none, none, lim⟩).2.1 r = true)
        ↔ r.code ∈ L) ∧
    (∀ r : Incident,
      (evalIConds (buildIncidentsParts ⟨none, none, none, some s, none, lim⟩).1
        (buildIncidentsParts ⟨none, none, none, some s, none, lim⟩).2.1 r = true)
        ↔ r.police_grid ∈ L) ∧
    (∀ r : Incident,
      (evalIConds (buildIncidentsParts ⟨none, none, none, none, some s, lim⟩).1
        (buildIncidentsParts ⟨none, none, none, none, some s, lim⟩).2.1 r = true)
        ↔ r.neighborhood_number ∈ L) := by
  have htr : isTruthy (some s) = true := by simpa [isTruthy] using hs
  have hcodes : ∀ r : CodesRow,
      (evalCodesConds (buildCodesParts ⟨some s, fmt⟩).1 (buildCodesParts ⟨some s, fmt⟩).2 r
        = true) ↔ r.code ∈ L := by
    intro r
    simp only [buildCodesParts, htr, if_pos, Option.getD, hL, List.nil_append]
    simp only [evalCodesConds, Bool.and_true]
    exact take_length_any_eqInt L r.code
  refine ⟨hcodes, ?_, ?_, ?_, ?_, ?_⟩
  · intro db r
    unfold runCodes
    rw [List.mem_insertionSort, List.mem_filter]
    rw [hcodes r]
  · intro r
    simp only [buildNeighborhoodsParts, htr, if_pos, Option.getD, hL, List.nil_append]
    simp only [evalNeighborhoodsConds, Bool.and_true]
    exact take_length_any_eqInt L r.neighborhood_number
  · intro r
    have hc1 : (buildIncidentsParts ⟨none, none, some s, none, none, lim⟩).1 =
        [ICond.inList IncField.code (L.map SqlValue.int).length] := by
      rw [buildIncidentsParts_eq]
      simp [isTruthy, hs, hL]
    have hp1 : (buildIncidentsParts ⟨none, none, some s, none, none, lim⟩).2.1 =
        L.map SqlValue.int := by
      rw [buildIncidentsParts_eq]
      simp [isTruthy, hs, hL]
    rw [hc1, hp1]
    simp only [evalIConds, evalICond, condArity, incFieldVal, Bool.and_true,
      List.take_take, min_self]
    exact take_length_any_eqInt L r.code
  · intro r
    have hc1 : (buildIncidentsParts ⟨none, none, none, some s, none, lim⟩).1 =
        [ICond.inList IncField.police_grid (L.map SqlValue.int).length] := by
      rw [buildIncidentsParts_eq]
      simp [isTruthy, hs, hL]
    have hp1 : (buildIncidentsParts ⟨none, none, none, some s, none, lim⟩).2.1 =
        L.map SqlValue.int := by
      rw [buildIncidentsParts_eq]
      simp [isTruthy, hs, hL]
    rw [hc1, hp1]
    simp only [evalIConds, evalICond, condArity, incFieldVal, Bool.and_true,
      List.take_take, min_self]
    exact take_length_any_eqInt L r.police_grid
  · intro r
    have hc1 : (buildIncidentsParts ⟨none, none, none, none, some s, lim⟩).1 =
        [ICond.inList IncField.neighborhood_number (L.map SqlValue.int).length] := by
      rw [buildIncidentsParts_eq]
      simp [isTruthy, hs, hL]
    have hp1 : (buildIncidentsParts ⟨none, none, none, none, some s, lim⟩).2.1 =
        L.map SqlValue.int := by
      rw [buildIncidentsParts_eq]
      simp [isTruthy, hs, hL]
    rw [hc1, hp1]
    simp only [evalIConds, evalICond, condArity, incFieldVal, Bool.and_true,
      List.take_take, min_self]
    exact take_length_any_eqInt L r.neighborhood_number

/-- Witness for C2 at `code=2,4`: the `/codes` store rows with codes 2
and 4 are selected, the row with code 3 is not. -/
theorem c2_in_filter_exact_witness :
    (2 : Int) ∈ ([2, 4] : List Int) ∧
    (⟨2, "theft"⟩ : CodesRow) ∈
      runCodes ⟨some "2,4", none⟩ [⟨2, "theft"⟩, ⟨3, "arson"⟩, ⟨4, "fraud"⟩] ∧
    ¬ (⟨3, "arson"⟩ : CodesRow) ∈
      runCodes ⟨some "2,4", none⟩ [⟨2, "theft"⟩, ⟨3, "arson"⟩, ⟨4, "fraud"⟩] := by
  have h := c2_in_filter_exact "2,4" [2, 4] none none (by decide) (by decide)
  refine ⟨by decide, ?_, ?_⟩
  · exact (h.2.1 [⟨2, "theft"⟩, ⟨3, "arson"⟩, ⟨4, "fraud"⟩] ⟨2, "theft"⟩).mpr
      ⟨by decide, by decide⟩
  · intro hmem
    have := (h.2.1 [⟨2, "theft"⟩, ⟨3, "arson"⟩, ⟨4, "fraud"⟩] ⟨3, "arson"⟩).mp hmem
    revert this
    decide

/-! ## C9: multiple filters are ANDed; zero filters emit no WHERE -/

/-- **C9.** With both `start_date` and `end_date` supplied the
`/incidents` conditions are joined with AND and a row matches exactly
when it satisfies both range conditions; with no filter parameters
supplied no WHERE clause is emitted. -/
theorem c9_and_combination (sd ed : String) (lim : Option String)
    (hsd : sd ≠ "") (hed : ed ≠ "")
    (q0 : IncidentsQuery)
    (h1 : ¬ isTruthy q0.start_date = true) (h2 : ¬ isTruthy q0.end_date = true)
    (h3 : ¬ isTruthy q0.code = true) (h4 : ¬ isTruthy q0.grid = true)
    (h5 : ¬ isTruthy q0.neighborhood = true) :
    (buildIncidentsParts ⟨some sd, some ed, none, none, none, lim⟩).1 =
      [ICond.dateGe, ICond.dateLe] ∧
    incidentsQueryString ⟨some sd, some ed, none, none, none, lim⟩ =
      incidentsBase ++ " WHERE date(date_time) >= ? AND date(date_time) <= ?" ++
        " ORDER BY date_time DESC" ++ " LIMIT ?" ∧
    (∀ r : Incident,
      (evalIConds (buildIncidentsParts ⟨some sd, some ed, none, none, none, lim⟩).1
          (buildIncidentsParts ⟨some sd, some ed, none, none, none, lim⟩).2.1 r = true)
        ↔ (strLe sd (dateOf r.date_time) = true ∧ strLe (dateOf r.date_time) ed = true)) ∧
    incidentsQueryString q0 = incidentsBase ++ " ORDER BY date_time DESC" ++ " LIMIT ?" := by
  have hsd' : isTruthy (some sd) = true := by simpa [isTruthy] using hsd
  have hed' : isTruthy (some ed) = true := by simpa [isTruthy] using hed
  have hconds : (buildIncidentsParts ⟨some sd, some ed, none, none, none, lim⟩).1 =
      [ICond.dateGe, ICond.dateLe] := by
    rw [buildIncidentsParts_eq]
    simp [isTruthy, hsd, hed]
  have hps : (buildIncidentsParts ⟨some sd, some ed, none, none, none, lim⟩).2.1 =
      [SqlValue.str sd, SqlValue.str ed] := by
    rw [buildIncidentsParts_eq]
    simp [isTruthy, hsd, hed]
  have hconds0 : (buildIncidentsParts q0).1 = [] := by
    rw [buildIncidentsParts_eq]
    simp [h1, h2, h3, h4, h5]
  refine ⟨hconds, ?_, ?_, ?_⟩
  · simp only [incidentsQueryString]
    rw [hconds]
    decide
  · intro r
    rw [hconds, hps]
    simp [evalIConds, evalICond, condArity, evalDateCmp]
  · simp only [incidentsQueryString]
    rw [hconds0]
    decide

/-- Witness for C9: a mid-2023 incident satisfies the conjunction of the
2023 date bounds, and a parameterless request emits no WHERE clause. -/
theorem c9_and_combination_witness :
    evalIConds
      (buildIncidentsParts ⟨some "2023-01-01", some "2023-12-31", none, none, none, none⟩).1
      (buildIncidentsParts ⟨some "2023-01-01", some "2023-12-31", none, none, none, none⟩).2.1
      ⟨"CN1", "2023-06-15 12:00:00", 1, "theft", 5, 7, "1 MAIN ST"⟩ = true ∧
    incidentsQueryString ⟨none, none, none, none, none, none⟩ =
      incidentsBase ++ " ORDER BY date_time DESC" ++ " LIMIT ?" := by
  have h := c9_and_combination "2023-01-01" "2023-12-31" none (by decide) (by decide)
    ⟨none, none, none, none, none, none⟩ (by decide) (by decide) (by decide) (by decide)
    (by decide)
  exact ⟨(h.2.2.1 ⟨"CN1", "2023-06-15 12:00:00", 1, "theft", 5, 7, "1 MAIN ST"⟩).mpr
    ⟨by decide, by decide⟩, h.2.2.2⟩

/-! ## C5: the limit option caps the result count -/

theorem charListLe_total (as bs : List Char) :
    charListLe as bs = true ∨ charListLe bs as = true := by
  induction as generalizing bs with
  | nil =>
    left
    rfl
  | cons a as ih =>
    cases bs with
    | nil =>
      right
      rfl
    | cons b bs =>
      by_cases hab : a = b
      · subst hab
        rcases ih bs with h | h
        · left
          simpa [charListLe] using h
        · right
          simpa [charListLe] using h
      · rcases lt_trichotomy a b with h | h | h
        · left
          simp [charListLe, hab, h]
        · exact absurd h hab
        · right
          simp [charListLe, Ne.symm hab, h]

theorem charListLe_trans (as bs cs : List Char)
    (h1 : charListLe as bs = true) (h2 : charListLe bs cs = true) :
    charListLe as cs = true := by
  induction as generalizing bs cs with
  | nil => rfl
  | cons a as ih =>
    cases bs with
    | nil => simp [charListLe] at h1
    | cons b bs =>
      cases cs with
      | nil => simp [charListLe] at h2
      | cons c cs =>
        by_cases hab : a = b <;> by_cases hbc : b = c
        · subst hab
          subst hbc
          simp only [charListLe, if_pos rfl] at h1 h2 ⊢
          exact ih bs cs h1 h2
        · subst hab
          simp only [charListLe, hbc, if_neg, if_false, decide_eq_true_eq] at h2
          simp [charListLe, hbc, h2]
        · subst hbc
          simp only [charListLe, hab, if_neg, if_false, decide_eq_true_eq] at h1
          simp [charListLe, hab, h1]
        · simp only [charListLe, hab, hbc, if_neg, if_false, decide_eq_true_eq] at h1 h2
          have hac : a < c := lt_trans h1 h2
          simp [charListLe, ne_of_lt hac, hac]

theorem runIncidents_eq (q : IncidentsQuery) (db : List Incident) :
    runIncidents q db =
      sqlLimit (buildIncidentsParts q).2.2
        ((db.filter (fun r =>
          evalIConds (buildIncidentsParts q).1 (buildIncidentsParts q).2.1 r)).insertionSort
            dateDesc) := rfl

/-- **C5.** The `/incidents` result is capped by `limit`: with `N`
matching rows and a requested limit `k ≤ N`, exactly `k` rows come back;
with `k ≥ N` all `N` rows come back (no upper bound is enforced); the
output is ordered by `date_time` descending; and with no limit
parameter the default is 1000, so at most 1000 rows come back. -/
theorem c5_limit (q : IncidentsQuery) (db : List Incident) (ls : String) (k : Int)
    (hq : q.limit = some ls) (hls : ls ≠ "") (hk : parseIntJS ls = some k) (hk0 : 0 ≤ k)
    (q' : IncidentsQuery) (hq' : ¬ isTruthy q'.limit = true) :
    (k.toNat ≤ matchCount q db → (runIncidents q db).length = k.toNat) ∧
    (matchCount q db ≤ k.toNat → (runIncidents q db).length = matchCount q db) ∧
    (runIncidents q db).Pairwise dateDesc ∧
    (runIncidents q' db).length ≤ 1000 ∧
    (runIncidents q' db).length = min 1000 (matchCount q' db) := by
  have hlim : (buildIncidentsParts q).2.2 = SqlValue.int k := by
    rw [buildIncidentsParts_eq]
    simp [isTruthy, hq, hls, hk, sqlOfParse]
  have hlim' : (buildIncidentsParts q').2.2 = SqlValue.int 1000 := by
    rw [buildIncidentsParts_eq]
    simp [hq']
  have hnotneg : ¬ k < 0 := not_lt.mpr hk0
  have hrun : (runIncidents q db).length = min k.toNat (matchCount q db) := by
    rw [runIncidents_eq, hlim]
    simp only [sqlLimit, hnotneg, if_neg, if_false]
    rw [List.length_take, List.length_insertionSort]
    rfl
  have hrun' : (runIncidents q' db).length = min 1000 (matchCount q' db) := by
    rw [runIncidents_eq, hlim']
    simp only [sqlLimit]
    rw [if_neg (by omega), List.length_take, List.length_insertionSort]
    rfl
  refine ⟨?_, ?_, ?_, ?_, hrun'⟩
  · intro hkn
    rw [hrun]
    omega
  · intro hnk
    rw [hrun]
    omega
  · haveI : IsTotal Incident dateDesc :=
      ⟨fun a b => by
        unfold dateDesc strLe
        rcases charListLe_total b.date_time.toList a.date_time.toList with h | h
        · left
          exact h
        · right
          exact h⟩
    haveI : IsTrans Incident dateDesc :=
      ⟨fun a b c h1 h2 => by
        unfold dateDesc strLe at *
        exact charListLe_trans _ _ _ h2 h1⟩
    rw [runIncidents_eq, hlim]
    simp only [sqlLimit, hnotneg, if_neg, if_false]
    exact (List.sorted_insertionSort dateDesc _).sublist (List.take_sublist _ _)
  · rw [hrun']
    omega

/-- Witness for C5: two matching rows, `limit=1` returns exactly one;
without a limit parameter both rows (at most 1000) come back. -/
theorem c5_limit_witness :
    (runIncidents ⟨none, none, none, none, none, some "1"⟩
      [⟨"CN1", "2023-01-02 10:00:00", 1, "theft", 5, 7, "1 MAIN ST"⟩,
       ⟨"CN2", "2023-01-03 11:00:00", 2, "arson", 6, 8, "2 OAK AVE"⟩]).length = 1 ∧
    (runIncidents ⟨none, none, none, none, none, none⟩
      [⟨"CN1", "2023-01-02 10:00:00", 1, "theft", 5, 7, "1 MAIN ST"⟩,
       ⟨"CN2", "2023-01-03 11:00:00", 2, "arson", 6, 8, "2 OAK AVE"⟩]).length =
      min 1000 (matchCount ⟨none, none, none, none, none, none⟩
        [⟨"CN1", "2023-01-02 10:00:00", 1, "theft", 5, 7, "1 MAIN ST"⟩,
         ⟨"CN2", "2023-01-03 11:00:00", 2, "arson", 6, 8, "2 OAK AVE"⟩]) := by
  have h := c5_limit ⟨none, none, none, none, none, some "1"⟩
    [⟨"CN1", "2023-01-02 10:00:00", 1, "theft", 5, 7, "1 MAIN ST"⟩,
     ⟨"CN2", "2023-01-03 11:00:00", 2, "arson", 6, 8, "2 OAK AVE"⟩]
    "1" 1 rfl (by decide) (by decide) (by decide)
    ⟨none, none, none, none, none, none⟩ (by decide)
  exact ⟨h.1 (by decide), h.2.2.2.2⟩

/-! ## C7: the stored timestamp splits back into date and time -/

theorem takeWhile_no_space (l1 l2 : List Char) (h : ∀ c ∈ l1, c ≠ ' ') :
    (l1 ++ ' ' :: l2).takeWhile (fun c => c ≠ ' ') = l1 := by
  induction l1 with
  | nil => simp
  | cons a l ih =>
    have ha : a ≠ ' ' := h a (List.mem_cons_self a l)
    simpa [List.takeWhile_cons, ha] using ih (fun c hc => h c (List.mem_cons_of_mem a hc))

theorem dropWhile_no_space (l1 l2 : List Char) (h : ∀ c ∈ l1, c ≠ ' ') :
    (l1 ++ ' ' :: l2).dropWhile (fun c => c ≠ ' ') = ' ' :: l2 := by
  induction l1 with
  | nil => simp
  | cons a l ih =>
    have ha : a ≠ ' ' := h a (List.mem_cons_self a l)
    simpa [List.dropWhile_cons, ha] using ih (fun c hc => h c (List.mem_cons_of_mem a hc))

theorem concat_toList (d t : String) :
    (d ++ " " ++ t).toList = d.toList ++ ' ' :: t.toList := by
  simp [String.toList]

theorem dateOf_concat (d t : String) (hd : ∀ c ∈ d.toList, c ≠ ' ') :
    dateOf (d ++ " " ++ t) = d := by
  unfold dateOf
  rw [concat_toList, takeWhile_no_space _ _ hd]
  cases d
  rfl

theorem timeOf_concat (d t : String) (hd : ∀ c ∈ d.toList, c ≠ ' ') :
    timeOf (d ++ " " ++ t) = t := by
  unfold timeOf
  rw [concat_toList, dropWhile_no_space _ _ hd]
  cases t
  rfl

/-- **C7.** Creating an incident stores `date ++ " " ++ time` as the
timestamp, and the `/incidents` projection splits it back: the projected
record of the new row has date part equal to the submitted date and time
part equal to the submitted time, and whenever the new row is in a
query's result set its projection is in the serialised output. -/
theorem c7_datetime_roundtrip (db : List Incident) (b : NewIncidentBody)
    (hfresh : ∀ r ∈ db, r.case_number ≠ b.case_number)
    (hd : ∀ c ∈ b.date.toList, c ≠ ' ') :
    (newIncident db b).db = db ++ [rowOfBody b] ∧
    (rowOfBody b).date_time = b.date ++ " " ++ b.time ∧
    (projectIncident (rowOfBody b)).date = b.date ∧
    (projectIncident (rowOfBody b)).time = b.time ∧
    (∀ q : IncidentsQuery, rowOfBody b ∈ runIncidents q (newIncident db b).db →
      projectIncident (rowOfBody b) ∈ runIncidentsOut q (newIncident db b).db) := by
  have hzero : ¬ 0 < (db.filter (fun r => r.case_number == b.case_number)).length := by
    intro hpos
    rcases (filter_case_pos db b.case_number).mp hpos with ⟨r, hmem, hcn⟩
    exact hfresh r hmem hcn
  have hnew : (newIncident db b).db = db ++ [rowOfBody b] := by
    unfold newIncident
    simp only [gt_iff_lt, hzero, if_neg, if_false]
  refine ⟨hnew, rfl, ?_, ?_, ?_⟩
  · show dateOf (rowOfBody b).date_time = b.date
    exact dateOf_concat b.date b.time hd
  · show timeOf (rowOfBody b).date_time = b.time
    exact timeOf_concat b.date b.time hd
  · intro q hmem
    unfold runIncidentsOut
    exact List.mem_map_of_mem projectIncident hmem

/-- Witness for C7: a freshly created incident with date `2023-01-02`
and time `10:00:00` appears in the parameterless `/incidents` output
with exactly those date and time parts. -/
theorem c7_datetime_roundtrip_witness :
    (projectIncident (rowOfBody
      ⟨"CN9", "2023-01-02", "10:00:00", 1, "theft", 5, 7, "1 MAIN ST"⟩)).date =
        "2023-01-02" ∧
    (projectIncident (rowOfBody
      ⟨"CN9", "2023-01-02", "10:00:00", 1, "theft", 5, 7, "1 MAIN ST"⟩)).time =
        "10:00:00" ∧
    projectIncident (rowOfBody
      ⟨"CN9", "2023-01-02", "10:00:00", 1, "theft", 5, 7, "1 MAIN ST"⟩) ∈
      runIncidentsOut ⟨none, none, none, none, none, none⟩
        (newIncident []
          ⟨"CN9", "2023-01-02", "10:00:00", 1, "theft", 5, 7, "1 MAIN ST"⟩).db := by
  have h := c7_datetime_roundtrip []
    ⟨"CN9", "2023-01-02", "10:00:00", 1, "theft", 5, 7, "1 MAIN ST"⟩
    (by decide) (by decide)
  exact ⟨h.2.2.1, h.2.2.2.1,
    h.2.2.2.2 ⟨none, none, none, none, none, none⟩ (by decide)⟩

/-! ## C8: the two JSON renderings agree up to insignificant whitespace -/

theorem toList_append (a b : String) : (a ++ b).toList = a.toList ++ b.toList := by
  simp [String.toList]

theorem string_mk_eq (x : List Char) (y : String) (h : x = y.toList) :
    (⟨x⟩ : String) = y := by
  cases y
  cases h
  rfl

theorem stripScan_append (st : Bool × Bool) (a b : List Char) :
    stripScan st (a ++ b) =
      ((stripScan st a).1 ++ (stripScan (stripScan st a).2 b).1,
       (stripScan (stripScan st a).2 b).2) := by
  induction a generalizing st with
  | nil => simp [stripScan]
  | cons c cs ih =>
    simp [stripScan, ih (stripStep st c).2, List.append_assoc]

theorem stripScan_plain (l : List Char)
    (h : ∀ c ∈ l, isJsonWs c = false ∧ c ≠ '"') :
    stripScan (false, false) l = (l, (false, false)) := by
  induction l with
  | nil => rfl
  | cons a l ih =>
    rcases h a (List.mem_cons_self a l) with ⟨hw, hq⟩
    simp [stripScan, stripStep, hw, hq,
      ih (fun c hc => h c (List.mem_cons_of_mem a hc))]

theorem stripScan_inString_plain (l : List Char)
    (h : ∀ ch ∈ l, ch ≠ '"' ∧ ch ≠ '\\') :
    stripScan (true, false) l = (l, (true, false)) := by
  induction l with
  | nil => rfl
  | cons a l ih =>
    rcases h a (List.mem_cons_self a l) with ⟨h1, h2⟩
    simp [stripScan, stripStep, h1, h2,
      ih (fun ch hc => h ch (List.mem_cons_of_mem a hc))]

theorem stripScan_escPair (ch : Char) (rest : List Char) :
    stripScan (true, false) ('\\' :: ch :: rest) =
      ('\\' :: ch :: (stripScan (true, false) rest).1,
       (stripScan (true, false) rest).2) := by
  simp [stripScan, stripStep]

theorem hexDigitChar_plain (n : Nat) (hn : n < 16) :
    hexDigitChar n ≠ '"' ∧ hexDigitChar n ≠ '\\' ∧ isJsonWs (hexDigitChar n) = false := by
  interval_cases n <;> decide

theorem stripScan_escape (c : Char) :
    stripScan (true, false) (escapeJsonChar c) = (escapeJsonChar c, (true, false)) := by
  unfold escapeJsonChar
  by_cases h1 : c = '"'
  · rw [if_pos h1]
    decide
  · rw [if_neg h1]
    by_cases h2 : c = '\\'
    · rw [if_pos h2]
      decide
    · rw [if_neg h2]
      by_cases h3 : c = '\x08'
      · rw [if_pos h3]
        decide
      · rw [if_neg h3]
        by_cases h4 : c = '\x09'
        · rw [if_pos h4]
          decide
        · rw [if_neg h4]
          by_cases h5 : c = '\x0a'
          · rw [if_pos h5]
            decide
          · rw [if_neg h5]
            by_cases h6 : c = '\x0c'
            · rw [if_pos h6]
              decide
            · rw [if_neg h6]
              by_cases h7 : c = '\x0d'
              · rw [if_pos h7]
                decide
              · rw [if_neg h7]
                by_cases h8 : c.toNat < 0x20
                · rw [if_pos h8]
                  have ha := hexDigitChar_plain (c.toNat / 16) (by omega)
                  have hb := hexDigitChar_plain (c.toNat % 16) (by omega)
                  have hpl : ∀ ch ∈ ['0', '0', hexDigitChar (c.toNat / 16),
                      hexDigitChar (c.toNat % 16)], ch ≠ '"' ∧ ch ≠ '\\' := by
                    intro ch hc
                    simp only [List.mem_cons, List.not_mem_nil, or_false] at hc
                    rcases hc with h | h | h | h
                    · subst h
                      exact ⟨by decide, by decide⟩
                    · subst h
                      exact ⟨by decide, by decide⟩
                    · subst h
                      exact ⟨ha.1, ha.2.1⟩
                    · subst h
                      exact ⟨hb.1, hb.2.1⟩
                  rw [stripScan_escPair, stripScan_inString_plain _ hpl]
                · rw [if_neg h8]
                  apply stripScan_inString_plain
                  intro ch hc
                  simp only [List.mem_singleton] at hc
                  subst hc
                  exact ⟨h1, h2⟩

theorem stripScan_escBody (l : List Char) :
    stripScan (true, false) (l.map escapeJsonChar).flatten =
      ((l.map escapeJsonChar).flatten, (true, false)) := by
  induction l with
  | nil => rfl
  | cons a l ih =>
    simp only [List.map_cons, List.flatten_cons]
    rw [stripScan_append, stripScan_escape]
    simp [ih]

theorem stripScan_open_quote (rest : List Char) :
    stripScan (false, false) ('"' :: rest) =
      ('"' :: (stripScan (true, false) rest).1, (stripScan (true, false) rest).2) := by
  have h : isJsonWs '"' = false := by decide
  simp [stripScan, stripStep, h]

theorem stripScan_jsonQuote (s : String) :
    stripScan (false, false) (jsonQuote s).toList =
      ((jsonQuote s).toList, (false, false)) := by
  have hlist : (jsonQuote s).toList =
      '"' :: ((s.toList.map escapeJsonChar).flatten ++ ['"']) := rfl
  rw [hlist, stripScan_open_quote, stripScan_append, stripScan_escBody]
  have hclose : stripScan (true, false) ['"'] = (['"'], (false, false)) := by decide
  simp [hclose]

theorem stripScan_pass_append (a b : List Char)
    (ha : stripScan (false, false) a = (a, (false, false)))
    (hb : stripScan (false, false) b = (b, (false, false))) :
    stripScan (false, false) (a ++ b) = (a ++ b, (false, false)) := by
  rw [stripScan_append, ha]
  simp [hb]

theorem digitChar_plain (n : Nat) :
    isJsonWs (Nat.digitChar n) = false ∧ Nat.digitChar n ≠ '"' := by
  by_cases h : n < 16
  · interval_cases n <;> decide
  · unfold Nat.digitChar
    rw [if_neg (show ¬ n = 0 by omega)]
    rw [if_neg (show ¬ n = 1 by omega)]
    rw [if_neg (show ¬ n = 2 by omega)]
    rw [if_neg (show ¬ n = 3 by omega)]
    rw [if_neg (show ¬ n = 4 by omega)]
    rw [if_neg (show ¬ n = 5 by omega)]
    rw [if_neg (show ¬ n = 6 by omega)]
    rw [if_neg (show ¬ n = 7 by omega)]
    rw [if_neg (show ¬ n = 8 by omega)]
    rw [if_neg (show ¬ n = 9 by omega)]
    rw [if_neg (show ¬ n = 10 by omega)]
    rw [if_neg (show ¬ n = 11 by omega)]
    rw [if_neg (show ¬ n = 12 by omega)]
    rw [if_neg (show ¬ n = 13 by omega)]
    rw [if_neg (show ¬ n = 14 by omega)]
    rw [if_neg (show ¬ n = 15 by omega)]
    decide

theorem toDigitsCore_plain (b f : Nat) :
    ∀ (n : Nat) (acc : List Char),
      (∀ c ∈ acc, isJsonWs c = false ∧ c ≠ '"') →
      ∀ c ∈ Nat.toDigitsCore b f n acc, isJsonWs c = false ∧ c ≠ '"' := by
  induction f with
  | zero =>
    intro n acc hacc c hc
    exact hacc c hc
  | succ f ih =>
    intro n acc hacc c hc
    simp only [Nat.toDigitsCore] at hc
    have hcons : ∀ d ∈ Nat.digitChar (n % b) :: acc, isJsonWs d = false ∧ d ≠ '"' := by
      intro d hd
      rcases List.mem_cons.mp hd with h | h
      · subst h
        exact digitChar_plain (n % b)
      · exact hacc d h
    split at hc
    · exact hcons c hc
    · exact ih (n / b) (Nat.digitChar (n % b) :: acc) hcons c hc

theorem natRepr_plain (m : Nat) :
    ∀ c ∈ (Nat.repr m).toList, isJsonWs c = false ∧ c ≠ '"' := by
  intro c hc
  exact toDigitsCore_plain 10 (m + 1) m [] (by simp) c hc

theorem renderInt_plain (n : Int) :
    ∀ c ∈ (renderInt n).toList, isJsonWs c = false ∧ c ≠ '"' := by
  cases n with
  | ofNat m =>
    intro c hc
    exact natRepr_plain m c hc
  | negSucc m =>
    intro c hc
    have hlist : (renderInt (Int.negSucc m)).toList = '-' :: (Nat.repr (m + 1)).toList := rfl
    rw [hlist] at hc
    rcases List.mem_cons.mp hc with h | h
    · subst h
      exact ⟨by decide, by decide⟩
    · exact natRepr_plain (m + 1) c h

theorem stripScan_renderInt (n : Int) :
    stripScan (false, false) (renderInt n).toList =
      ((renderInt n).toList, (false, false)) :=
  stripScan_plain _ (renderInt_plain n)

theorem stripScan_renderCodesRow (r : CodesRow) :
    stripScan (false, false) (renderCodesRow r).toList =
      ((renderCodesRow r).toList, (false, false)) := by
  have h1 : stripScan (false, false) "\x7b\"code\":".toList =
      ("\x7b\"code\":".toList, (false, false)) := by decide
  have h2 : stripScan (false, false) ",\"type\":".toList =
      (",\"type\":".toList, (false, false)) := by decide
  have h3 : stripScan (false, false) "\x7d".toList = ("\x7d".toList, (false, false)) := by decide
  have hrender : (renderCodesRow r).toList =
      "\x7b\"code\":".toList ++ (renderInt r.code).toList ++ ",\"type\":".toList ++
        (jsonQuote r.incident_type).toList ++ "\x7d".toList := by
    simp [renderCodesRow, toList_append]
  rw [hrender]
  exact stripScan_pass_append _ _
    (stripScan_pass_append _ _
      (stripScan_pass_append _ _
        (stripScan_pass_append _ _ h1 (stripScan_renderInt r.code)) h2)
      (stripScan_jsonQuote r.incident_type)) h3

theorem stripScan_renderNeighborhoodRow (r : NeighborhoodRow) :
    stripScan (false, false) (renderNeighborhoodRow r).toList =
      ((renderNeighborhoodRow r).toList, (false, false)) := by
  have h1 : stripScan (false, false) "\x7b\"id\":".toList =
      ("\x7b\"id\":".toList, (false, false)) := by decide
  have h2 : stripScan (false, false) ",\"name\":".toList =
      (",\"name\":".toList, (false, false)) := by decide
  have h3 : stripScan (false, false) "\x7d".toList = ("\x7d".toList, (false, false)) := by decide
  have hrender : (renderNeighborhoodRow r).toList =
      "\x7b\"id\":".toList ++ (renderInt r.neighborhood_number).toList ++ ",\"name\":".toList ++
        (jsonQuote r.neighborhood_name).toList ++ "\x7d".toList := by
    simp [renderNeighborhoodRow, toList_append]
  rw [hrender]
  exact stripScan_pass_append _ _
    (stripScan_pass_append _ _
      (stripScan_pass_append _ _
        (stripScan_pass_append _ _ h1 (stripScan_renderInt r.neighborhood_number)) h2)
      (stripScan_jsonQuote r.neighborhood_name)) h3

theorem strip_join_records (recs : List String)
    (h : ∀ rec ∈ recs,
      stripScan (false, false) rec.toList = (rec.toList, (false, false))) :
    stripScan (false, false) (joinSep ",\n" (recs.map (fun r => "  " ++ r))).toList =
      ((joinSep "," recs).toList, (false, false)) := by
  induction recs with
  | nil => rfl
  | cons r rest ih =>
    have hr := h r (List.mem_cons_self r rest)
    have hindent : stripScan (false, false) ("  " ++ r).toList =
        (r.toList, (false, false)) := by
      rw [toList_append]
      rw [stripScan_append]
      have h2 : stripScan (false, false) "  ".toList = ([], (false, false)) := by decide
      rw [h2]
      simp only [List.nil_append]
      exact hr
    cases rest with
    | nil =>
      simpa [joinSep, String.toList] using hindent
    | cons r2 rest2 =>
      have hrest : ∀ rec ∈ r2 :: rest2,
          stripScan (false, false) rec.toList = (rec.toList, (false, false)) :=
        fun rec hc => h rec (List.mem_cons_of_mem r hc)
      have hsep : stripScan (false, false) ",\n".toList = ([','], (false, false)) := by
        decide
      simp only [List.map_cons, joinSep] at ih ⊢
      rw [toList_append, toList_append, stripScan_append, stripScan_append, hindent,
        hsep, ih hrest]
      simp [List.append_assoc]

theorem strip_customArray (recs : List String)
    (h : ∀ rec ∈ recs,
      stripScan (false, false) rec.toList = (rec.toList, (false, false))) :
    stripJsonWs (customArray recs) = plainArray recs := by
  unfold stripJsonWs customArray
  rw [toList_append, toList_append, stripScan_append, stripScan_append]
  have hopen : stripScan (false, false) "[\n".toList = (['['], (false, false)) := by decide
  have hclose : stripScan (false, false) "\n]".toList = ([']'], (false, false)) := by decide
  rw [hopen, strip_join_records recs h, hclose]
  apply string_mk_eq
  unfold plainArray
  rw [toList_append, toList_append]
  simp [List.append_assoc, String.toList]

/-- **C8.** On `/codes` and `/neighborhoods`, `format=plain` yields the
compact JSON array of row objects, its absence yields the custom
two-space-indented newline-joined rendering, and the two renderings are
the same JSON token stream: deleting the whitespace that sits outside
string literals from the custom rendering gives exactly the plain one. -/
theorem c8_renderings_agree (q : CodesQuery) (q' : NeighborhoodsQuery)
    (p : CodesQuery) (p' : NeighborhoodsQuery)
    (rows : List CodesRow) (nrows : List NeighborhoodRow)
    (hq : formatIsPlain q.format = true) (hq' : formatIsPlain q'.format = true)
    (hp : ¬ formatIsPlain p.format = true) (hp' : ¬ formatIsPlain p'.format = true) :
    codesBody q rows = plainArray (rows.map renderCodesRow) ∧
    codesBody p rows = customArray (rows.map renderCodesRow) ∧
    stripJsonWs (codesBody p rows) = codesBody q rows ∧
    neighborhoodsBody q' nrows = plainArray (nrows.map renderNeighborhoodRow) ∧
    neighborhoodsBody p' nrows = customArray (nrows.map renderNeighborhoodRow) ∧
    stripJsonWs (neighborhoodsBody p' nrows) = neighborhoodsBody q' nrows := by
  have hbq : codesBody q rows = plainArray (rows.map renderCodesRow) := by
    unfold codesBody
    rw [if_pos hq]
  have hbp : codesBody p rows = customArray (rows.map renderCodesRow) := by
    unfold codesBody
    rw [if_neg hp]
  have hbq' : neighborhoodsBody q' nrows = plainArray (nrows.map renderNeighborhoodRow) := by
    unfold neighborhoodsBody
    rw [if_pos hq']
  have hbp' : neighborhoodsBody p' nrows = customArray (nrows.map renderNeighborhoodRow) := by
    unfold neighborhoodsBody
    rw [if_neg hp']
  refine ⟨hbq, hbp, ?_, hbq', hbp', ?_⟩
  · rw [hbq, hbp]
    apply strip_customArray
    intro rec hrec
    rcases List.mem_map.mp hrec with ⟨r, _, hrend⟩
    rw [← hrend]
    exact stripScan_renderCodesRow r
  · rw [hbq', hbp']
    apply strip_customArray
    intro rec hrec
    rcases List.mem_map.mp hrec with ⟨r, _, hrend⟩
    rw [← hrend]
    exact stripScan_renderNeighborhoodRow r

/-- Witness for C8 at two concrete rows: the plain body, the custom
body, and the whitespace-stripped agreement, all evaluated. -/
theorem c8_renderings_agree_witness :
    codesBody ⟨none, some "plain"⟩ [⟨110, "Murder"⟩, ⟨-3, "a b"⟩] =
      "[\x7b\"code\":110,\"type\":\"Murder\"\x7d,\x7b\"code\":-3,\"type\":\"a b\"\x7d]" ∧
    codesBody ⟨none, none⟩ [⟨110, "Murder"⟩, ⟨-3, "a b"⟩] =
      "[\n  \x7b\"code\":110,\"type\":\"Murder\"\x7d,\n  \x7b\"code\":-3,\"type\":\"a b\"\x7d\n]" ∧
    stripJsonWs (codesBody ⟨none, none⟩ [⟨110, "Murder"⟩, ⟨-3, "a b"⟩]) =
      codesBody ⟨none, some "plain"⟩ [⟨110, "Murder"⟩, ⟨-3, "a b"⟩] := by
  have h := c8_renderings_agree ⟨none, some "plain"⟩ ⟨none, some "plain"⟩
    ⟨none, none⟩ ⟨none, none⟩ [⟨110, "Murder"⟩, ⟨-3, "a b"⟩] []
    (by decide) (by decide) (by decide) (by decide)
  refine ⟨?_, ?_, h.2.2.1⟩
  · rw [h.1]
    decide
  · rw [h.2.1]
    decide

end RestServer
